import Mathlib

/-!
Verification of the Kir-Manager core against its specification.

The Go sources are shallowly embedded: file contents are `List Char` or
`String`, on-disk directory trees are explicit association lists, and every
fallible operation returns its error through `Option`/`Except`.  External
library calls (JSON decoding, RFC3339 parsing) that the repository merely
invokes are passed in as explicit function parameters, so the theorems
quantify over their behaviour.
-/

set_option maxRecDepth 10000

namespace KiroManager

/-- Model of Go `strings.EqualFold` as used by `reset.IsCurrentMachineIDBackedUp`
(the identifiers compared are ASCII UUID/hex strings). -/
def eqFold (a b : String) : Bool := a.toLower == b.toLower

/-- Whether `pat` is an initial segment of `l` (Go `strings.HasPrefix` on bytes,
modelled at character granularity; all markers involved are ASCII). -/
def strStarts : List Char → List Char → Bool
  | [], _ => true
  | _ :: _, [] => false
  | p :: ps, c :: cs => p == c && strStarts ps cs

/-- Whether `pat` occurs somewhere in `l` (Go `strings.Contains`). -/
def hasSub (pat : List Char) : List Char → Bool
  | [] => strStarts pat []
  | c :: rest => strStarts pat (c :: rest) || hasSub pat rest

/-- Number of positions of `l` at which `pat` occurs. -/
def countSub (pat : List Char) : List Char → Nat
  | [] => if strStarts pat [] then 1 else 0
  | c :: rest => (if strStarts pat (c :: rest) then 1 else 0) + countSub pat rest

/-- Tail-recursive runner for `countSub` (same function, accumulator-passing;
see `countSubT_eq`).  The inner `match` keeps the accumulator in evaluated
numeral form along the run. -/
def countSubT (pat : List Char) : List Char → Nat → Nat
  | [], acc => acc + (if strStarts pat [] then 1 else 0)
  | c :: rest, acc =>
    match acc + (if strStarts pat (c :: rest) then 1 else 0) with
    | 0 => countSubT pat rest 0
    | Nat.succ m => countSubT pat rest (m + 1)

theorem countSubT_eq (pat : List Char) (l : List Char) :
    ∀ acc, countSubT pat l acc = acc + countSub pat l := by
  induction l with
  | nil => intro acc; rfl
  | cons c rest ih =>
    intro acc
    rw [countSub, ← Nat.add_assoc]
    rcases h : acc + (if strStarts pat (c :: rest) then 1 else 0) with _ | m
    · simp only [countSubT, h, ih, Nat.zero_add]
    · simp only [countSubT, h, ih]

/-- Number of occurrences of `pat` in `l`, computed by the tail-recursive
runner (equal to `countSub pat l` by `occCount_eq`). -/
def occCount (pat l : List Char) : Nat := countSubT pat l 0

theorem occCount_eq (pat l : List Char) : occCount pat l = countSub pat l := by
  rw [occCount, countSubT_eq, Nat.zero_add]

/-- Tail-recursive runner for Go `strings.Index`, carrying the index of the
current scan position in evaluated numeral form. -/
def idxOfSubFrom (pat : List Char) : List Char → Nat → Option Nat
  | [], i => if strStarts pat [] then some i else none
  | c :: rest, i =>
    if strStarts pat (c :: rest) then some i
    else
      match i + 1 with
      | 0 => idxOfSubFrom pat rest 0
      | Nat.succ m => idxOfSubFrom pat rest (m + 1)

/-- Index of the first occurrence of `pat` in `l` (Go `strings.Index`). -/
def idxOfSub (pat l : List Char) : Option Nat := idxOfSubFrom pat l 0

/-- Go `strings.Contains(s, pat)` on `String`s. -/
def strHas (s pat : String) : Bool := hasSub pat.data s.data

/-- Last character of a list, if any. -/
def lastChar : List Char → Option Char
  | [] => none
  | [c] => some c
  | _ :: c :: rest => lastChar (c :: rest)

/-- The whitespace class trimmed by Go `strings.TrimSpace` (ASCII part;
the override identifiers involved are ASCII). -/
def isGoSpace (c : Char) : Bool :=
  c == ' ' || c == '\t' || c == '\n' || c == '\x0b' || c == '\x0c' || c == '\r'

/-- Go `strings.TrimSpace`: drop leading and trailing whitespace. -/
def trimS (s : String) : String :=
  String.mk (((s.data.dropWhile isGoSpace).reverse.dropWhile isGoSpace).reverse)

/-! ## JSON value model

`backup.writeBackupTokenToPath` decodes the snapshot's token file into a Go
`map[string]interface{}`; decoded JSON values are strings, numbers, booleans,
null, arrays, or nested objects.  Objects are modelled as association lists
(Go maps are unordered and re-serialisation is value-wise). -/

inductive Json where
  | str (s : String)
  | num (n : Int)
  | boolean (b : Bool)
  | null
  | arr (elems : List Json)
  | obj (fields : List (String × Json))

/-- Field lookup in a decoded JSON object. -/
def jLookup (k : String) : List (String × Json) → Option Json
  | [] => none
  | (a, v) :: rest => cond (k == a) (some v) (jLookup k rest)

/-- Go map assignment `m[k] = v`: replace the binding when the key is present,
otherwise add it. -/
def setKey (m : List (String × Json)) (k : String) (v : Json) : List (String × Json) :=
  cond (m.any (fun p => p.1 == k))
    (m.map (fun p => cond (p.1 == k) (k, v) p))
    (m ++ [(k, v)])

/-- `backup.writeBackupTokenToPath` (part_001, lines 181-205): decode the
snapshot token file as an open field map, assign exactly the `accessToken`
and `expiresAt` keys, re-serialise.  A file that does not decode to a JSON
object fails the unmarshal step. -/
def writeBackupTokenToPath (tok : Json) (accessToken expiresAt : String) :
    Except Unit Json :=
  match tok with
  | .obj fields =>
    .ok (.obj (setKey (setKey fields "accessToken" (.str accessToken))
      "expiresAt" (.str expiresAt)))
  | _ => .error ()

theorem jLookup_map_set (k : String) (v : Json) (m : List (String × Json))
    (h : m.any (fun p => p.1 == k) = true) :
    jLookup k (m.map fun p => cond (p.1 == k) (k, v) p) = some v := by
  induction m with
  | nil => simp at h
  | cons a rest ih =>
    by_cases ha : a.1 = k
    · simp [jLookup, ha]
    · have ha' : (a.1 == k) = false := beq_eq_false_iff_ne.mpr ha
      have hka : (k == a.1) = false := beq_eq_false_iff_ne.mpr fun e => ha e.symm
      have h' : rest.any (fun p => p.1 == k) = true := by
        simpa [ha'] using h
      simp [jLookup, ha', hka, ih h']

theorem jLookup_append_set (k : String) (v : Json) (m : List (String × Json))
    (h : m.any (fun p => p.1 == k) = false) :
    jLookup k (m ++ [(k, v)]) = some v := by
  induction m with
  | nil => simp [jLookup]
  | cons a rest ih =>
    simp only [List.any_cons, Bool.or_eq_false_iff] at h
    have hk : (k == a.1) = false :=
      beq_eq_false_iff_ne.mpr fun e => (beq_eq_false_iff_ne.mp h.1) e.symm
    simp [jLookup, hk, ih h.2]

theorem jLookup_setKey_self (m : List (String × Json)) (k : String) (v : Json) :
    jLookup k (setKey m k v) = some v := by
  unfold setKey
  cases h : m.any (fun p => p.1 == k) with
  | true => simpa [h] using jLookup_map_set k v m h
  | false => simpa [h] using jLookup_append_set k v m h

theorem jLookup_map_other (k' k : String) (v : Json) (m : List (String × Json))
    (h : (k' == k) = false) :
    jLookup k' (m.map fun p => cond (p.1 == k) (k, v) p) = jLookup k' m := by
  induction m with
  | nil => rfl
  | cons a rest ih =>
    by_cases ha : a.1 = k
    · have hka : (k' == a.1) = false := by rw [ha]; exact h
      simp [jLookup, ha, h, hka, ih]
    · have ha' : (a.1 == k) = false := beq_eq_false_iff_ne.mpr ha
      cases hx : (k' == a.1) with
      | true => simp [jLookup, ha', hx]
      | false => simp [jLookup, ha', hx, ih]

theorem jLookup_append_other (k' k : String) (v : Json) (m : List (String × Json))
    (h : (k' == k) = false) :
    jLookup k' (m ++ [(k, v)]) = jLookup k' m := by
  induction m with
  | nil => simp [jLookup, h]
  | cons a rest ih =>
    cases hx : (k' == a.1) with
    | true => simp [jLookup, hx]
    | false => simp [jLookup, hx, ih]

theorem jLookup_setKey_other (k' k : String) (v : Json) (m : List (String × Json))
    (h : (k' == k) = false) :
    jLookup k' (setKey m k v) = jLookup k' m := by
  unfold setKey
  cases hm : m.any (fun p => p.1 == k) with
  | true => simpa using jLookup_map_other k' k v m h
  | false => simpa using jLookup_append_other k' k v m h

/-- Claim C1: for every snapshot whose token half decodes to a JSON object,
`writeBackupTokenToPath` rewrites the token so that `accessToken` and
`expiresAt` equal the new values and every other key of the object (known or
unknown, including nested objects) keeps its original value — a merge-write,
never a record replacement. -/
theorem claim_C1_updateToken_preserves_fields
    (fields : List (String × Json)) (newAccess newExpiry : String) :
    ∃ out, writeBackupTokenToPath (Json.obj fields) newAccess newExpiry =
        Except.ok (Json.obj out) ∧
      jLookup "accessToken" out = some (Json.str newAccess) ∧
      jLookup "expiresAt" out = some (Json.str newExpiry) ∧
      ∀ k, (k == "accessToken") = false → (k == "expiresAt") = false →
        jLookup k out = jLookup k fields := by
  refine ⟨_, rfl, ?_, jLookup_setKey_self _ _ _, ?_⟩
  · rw [jLookup_setKey_other _ _ _ _ (by decide), jLookup_setKey_self]
  · intro k h1 h2
    rw [jLookup_setKey_other _ _ _ _ h2, jLookup_setKey_other _ _ _ _ h1]

/-- Concrete instance of claim C1: the spec's scenario token
`{accessToken, expiresAt, refreshToken, custom}` updated with new access
token and expiry. -/
theorem claim_C1_witness :
    ∃ out, writeBackupTokenToPath
        (Json.obj [("accessToken", Json.str "a1"), ("expiresAt", Json.str "2025-01-01T00:00:00Z"),
          ("refreshToken", Json.str "r1"), ("custom", Json.str "x")])
        "a2" "2025-02-01T00:00:00Z" = Except.ok (Json.obj out) ∧
      jLookup "accessToken" out = some (Json.str "a2") ∧
      jLookup "expiresAt" out = some (Json.str "2025-02-01T00:00:00Z") ∧
      ∀ k, (k == "accessToken") = false → (k == "expiresAt") = false →
        jLookup k out =
          jLookup k [("accessToken", Json.str "a1"), ("expiresAt", Json.str "2025-01-01T00:00:00Z"),
            ("refreshToken", Json.str "r1"), ("custom", Json.str "x")] :=
  claim_C1_updateToken_preserves_fields _ "a2" "2025-02-01T00:00:00Z"

/-! ## Patch Engine model (src/softreset/patch.go, current V3 version)

The target artifact and its sibling backup file are the only state the patch
engine touches; they are modelled as an explicit record.  File contents are
`List Char` (the markers are ASCII, so byte and character granularity agree
on every marker operation). -/

/-- `PatchMarker`: the current (V3) start marker. -/
def PatchMarker : String := "/* KIRO_MANAGER_PATCH_V3 */"

/-- `PatchEndMarker`: the end marker, shared by all patch versions. -/
def PatchEndMarker : String := "/* END_KIRO_MANAGER_PATCH */"

/-- `OldPatchMarker`: the V1 start marker, recognised as stale. -/
def OldPatchMarker : String := "/* KIRO_MANAGER_PATCH_V1 */"

/-- `OldPatchMarkerV2`: the V2 start marker, recognised as stale. -/
def OldPatchMarkerV2 : String := "/* KIRO_MANAGER_PATCH_V2 */"

/-- `patchCode`: the injected V3 interception payload, verbatim from the
source (braces and apostrophes written as hex escapes). -/
def patchCode : String := "/* KIRO_MANAGER_PATCH_V3 */\n(function() \x7b\n  const fs = require(\x27fs\x27);\n  const path = require(\x27path\x27);\n  const os = require(\x27os\x27);\n  const childProcess = require(\x27child_process\x27);\n  const customIdPath = path.join(os.homedir(), \x27.kiro\x27, \x27custom-machine-id\x27);\n  let customMachineId = null;\n  try \x7b\n    customMachineId = fs.readFileSync(customIdPath, \x27utf8\x27).trim();\n  \x7d catch \x7b\x7d\n  if (!customMachineId) return;\n\n  // 1. 攔截 Module._load（vscode.env.machineId 和 node-machine-id）\n  const Module = require(\x27module\x27);\n  const originalLoad = Module._load;\n  Module._load = function(request, parent, isMain) \x7b\n    const mod = originalLoad.call(this, request, parent, isMain);\n    if (request === \x27vscode\x27) \x7b\n      return new Proxy(mod, \x7b\n        get(target, prop) \x7b\n          if (prop === \x27env\x27) \x7b\n            return new Proxy(target.env, \x7b\n              get(envTarget, envProp) \x7b\n                if (envProp === \x27machineId\x27) return customMachineId;\n                return envTarget[envProp];\n              \x7d\n            \x7d);\n          \x7d\n          return target[prop];\n        \x7d\n      \x7d);\n    \x7d\n    if (mod && typeof mod === \x27object\x27 && (typeof mod.machineIdSync === \x27function\x27 || typeof mod.machineId === \x27function\x27)) \x7b\n      return new Proxy(mod, \x7b\n        get(target, prop) \x7b\n          if (prop === \x27machineIdSync\x27) return () => customMachineId;\n          if (prop === \x27machineId\x27) return () => Promise.resolve(customMachineId);\n          return target[prop];\n        \x7d\n      \x7d);\n    \x7d\n    return mod;\n  \x7d;\n\n  // 2. 攔截 child_process（針對 @opentelemetry 和其他直接執行命令的模組）\n  const machineIdPatterns = [\n    \x27REG.exe QUERY\x27, \x27REG QUERY\x27, \x27MachineGuid\x27,\n    \x27ioreg\x27, \x27IOPlatformExpertDevice\x27,\n    \x27kenv\x27, \x27smbios.system.uuid\x27, \x27kern.hostuuid\x27\n  ];\n  const isMachineIdCmd = (cmd) => cmd && machineIdPatterns.some(p => cmd.includes(p));\n\n  const originalExec = childProcess.exec;\n  childProcess.exec = function(cmd, options, callback) \x7b\n    if (isMachineIdCmd(cmd)) \x7b\n      if (typeof options === \x27function\x27) \x7b callback = options; options = \x7b\x7d; \x7d\n      setImmediate(() => callback && callback(null, customMachineId, \x27\x27));\n      return \x7b on: () => \x7b\x7d, stdout: \x7b on: () => \x7b\x7d \x7d, stderr: \x7b on: () => \x7b\x7d \x7d \x7d;\n    \x7d\n    return originalExec.apply(this, arguments);\n  \x7d;\n\n  const originalExecSync = childProcess.execSync;\n  childProcess.execSync = function(cmd, options) \x7b\n    if (isMachineIdCmd(cmd)) return Buffer.from(customMachineId);\n    return originalExecSync.apply(this, arguments);\n  \x7d;\n\n  // 3. 攔截 fs（針對 Linux /etc/machine-id）\n  const machineIdPaths = [\x27/etc/machine-id\x27, \x27/var/lib/dbus/machine-id\x27, \x27/etc/hostid\x27];\n  const isMachineIdPath = (p) => p && machineIdPaths.some(mp => String(p).includes(mp));\n\n  const originalReadFile = fs.readFile;\n  fs.readFile = function(filePath, options, callback) \x7b\n    if (isMachineIdPath(filePath)) \x7b\n      if (typeof options === \x27function\x27) \x7b callback = options; \x7d\n      setImmediate(() => callback && callback(null, customMachineId));\n      return;\n    \x7d\n    return originalReadFile.apply(this, arguments);\n  \x7d;\n\n  const originalReadFileSync = fs.readFileSync;\n  fs.readFileSync = function(filePath, options) \x7b\n    if (isMachineIdPath(filePath)) return customMachineId;\n    return originalReadFileSync.apply(this, arguments);\n  \x7d;\n\n  if (fs.promises) \x7b\n    const originalPromisesReadFile = fs.promises.readFile;\n    fs.promises.readFile = async function(filePath, options) \x7b\n      if (isMachineIdPath(filePath)) return customMachineId;\n      return originalPromisesReadFile.apply(this, arguments);\n    \x7d;\n  \x7d\n\x7d)();\n/* END_KIRO_MANAGER_PATCH */\n"

/-- Character list of `PatchMarker`. -/
def patchMarkerD : List Char := PatchMarker.data

/-- Character list of `PatchEndMarker`. -/
def patchEndMarkerD : List Char := PatchEndMarker.data

/-- Character list of `OldPatchMarker`. -/
def oldPatchMarkerD : List Char := OldPatchMarker.data

/-- Character list of `OldPatchMarkerV2`. -/
def oldPatchMarkerV2D : List Char := OldPatchMarkerV2.data

/-- Character list of `patchCode`. -/
def patchCodeD : List Char := patchCode.data

/-- Errors of the patch engine relevant to the modelled operations. -/
inductive PatchErr where
  | extensionNotFound
  | backupNotFound
deriving DecidableEq, Repr

/-- On-disk state owned by the patch engine: the target artifact content and
the sibling `.kiro-manager-backup` file (`none` = absent). -/
structure Artifact where
  content : List Char
  backup : Option (List Char)
deriving DecidableEq, Repr

/-- `IsPatched`: the current marker occurs in the first 1 KB of the artifact. -/
def isPatchedA (a : Artifact) : Bool :=
  hasSub patchMarkerD (a.content.take 1024)

/-- `IsOldPatched`: a V1 or V2 marker occurs in the first 1 KB and the
current marker does not. -/
def isOldPatchedA (a : Artifact) : Bool :=
  (hasSub oldPatchMarkerD (a.content.take 1024) ||
    hasSub oldPatchMarkerV2D (a.content.take 1024)) &&
  !(hasSub patchMarkerD (a.content.take 1024))

/-- `BackupExtensionJS`: copy the artifact to the sibling backup file, never
overwriting an existing backup. -/
def backupExtensionJS (a : Artifact) : Artifact :=
  match a.backup with
  | some _ => a
  | none => { a with backup := some a.content }

/-- `RestoreExtensionJS` (V3 version): copy the backup over the artifact and
then delete the backup file; fails if no backup exists. -/
def restoreExtensionJS (a : Artifact) : Artifact × Option PatchErr :=
  match a.backup with
  | none => (a, some .backupNotFound)
  | some b => ({ content := b, backup := none }, none)

/-- `UnpatchExtensionJS`: no-op without any recognised marker; otherwise cut
everything up to and including the end marker (plus one following newline),
falling back to backup-based restore when the end marker cannot be found. -/
def unpatchExtensionJS (a : Artifact) : Artifact × Option PatchErr :=
  cond (!(isPatchedA a) && !(isOldPatchedA a)) (a, none)
    (match idxOfSub patchEndMarkerD a.content with
     | none => restoreExtensionJS a
     | some i =>
       let r := a.content.drop (i + patchEndMarkerD.length)
       ({ a with content := match r with | '\n' :: rest => rest | _ => r }, none))

/-- `PatchExtensionJS`: no-op when already current; remove a stale patch
first; then back up and prepend the payload to the artifact. -/
def patchExtensionJS (a : Artifact) : Artifact × Option PatchErr :=
  cond (isPatchedA a) (a, none)
    (match (cond (isOldPatchedA a) (unpatchExtensionJS a) (a, none)) with
     | (a1, some e) => (a1, some e)
     | (a1, none) =>
       let a2 := backupExtensionJS a1
       ({ a2 with content := patchCodeD ++ a2.content }, none))

/-! ### Scanning lemmas for the patch engine -/

theorem hasSub_count_zero (pat l : List Char) (h : hasSub pat l = false) :
    countSub pat l = 0 := by
  induction l with
  | nil =>
    rw [hasSub] at h
    rw [countSub, h]
    rfl
  | cons c rest ih =>
    rw [hasSub, Bool.or_eq_false_iff] at h
    rw [countSub, h.1, ih h.2]
    rfl

theorem strStarts_ne_nil (pat l : List Char) (h : strStarts pat l = false) :
    pat ≠ [] := by
  intro e
  subst e
  rw [strStarts] at h
  cases h

theorem strStarts_nil_false (pat : List Char) (h : pat ≠ []) :
    strStarts pat [] = false := by
  cases pat with
  | nil => exact absurd rfl h
  | cons p ps => rfl

theorem strStarts_take (pat l : List Char) (n : Nat)
    (h : strStarts pat (l.take n) = true) : strStarts pat l = true := by
  induction pat generalizing l n with
  | nil => rfl
  | cons p ps ih =>
    cases l with
    | nil =>
      cases n <;> exact absurd h Bool.false_ne_true
    | cons c rest =>
      cases n with
      | zero => exact absurd h Bool.false_ne_true
      | succ m =>
        rw [List.take, strStarts, Bool.and_eq_true] at h
        rw [strStarts, Bool.and_eq_true]
        exact ⟨h.1, ih rest m h.2⟩

theorem hasSub_take (pat l : List Char) (n : Nat) (h : hasSub pat l = false) :
    hasSub pat (l.take n) = false := by
  induction l generalizing n with
  | nil => cases n <;> exact h
  | cons c rest ih =>
    rw [hasSub, Bool.or_eq_false_iff] at h
    cases n with
    | zero =>
      rw [List.take, hasSub]
      exact strStarts_nil_false pat (strStarts_ne_nil pat _ h.1)
    | succ m =>
      rw [List.take, hasSub, Bool.or_eq_false_iff]
      constructor
      · cases hs : strStarts pat (c :: List.take m rest) with
        | false => rfl
        | true => rw [show c :: List.take m rest = (c :: rest).take (m+1) from rfl] at hs; rw [strStarts_take pat (c :: rest) (m+1) hs] at h; exact h.1
      · exact ih m h.2

theorem hasSub_tail (pat : List Char) (c : Char) (rest : List Char)
    (h : hasSub pat (c :: rest) = false) : hasSub pat rest = false := by
  rw [hasSub, Bool.or_eq_false_iff] at h
  exact h.2

theorem hasSub_drop (pat l : List Char) (n : Nat) (h : hasSub pat l = false) :
    hasSub pat (l.drop n) = false := by
  induction l generalizing n with
  | nil => cases n <;> exact h
  | cons c rest ih =>
    cases n with
    | zero => exact h
    | succ m => exact ih m (hasSub_tail pat c rest h)

theorem strStarts_append (pat a b : List Char) (h : strStarts pat a = true) :
    strStarts pat (a ++ b) = true := by
  induction pat generalizing a with
  | nil => rfl
  | cons p ps ih =>
    cases a with
    | nil => exact absurd h Bool.false_ne_true
    | cons c rest =>
      rw [strStarts, Bool.and_eq_true] at h
      rw [List.cons_append, strStarts, Bool.and_eq_true]
      exact ⟨h.1, ih rest h.2⟩

theorem strStarts_take_of (pat l : List Char) (n : Nat)
    (h : strStarts pat l = true) (hn : pat.length ≤ n) :
    strStarts pat (l.take n) = true := by
  induction pat generalizing l n with
  | nil => rfl
  | cons p ps ih =>
    cases l with
    | nil => exact absurd h Bool.false_ne_true
    | cons c rest =>
      rw [strStarts, Bool.and_eq_true] at h
      cases n with
      | zero => exact absurd hn (by simp [List.length])
      | succ m =>
        rw [List.take, strStarts, Bool.and_eq_true]
        exact ⟨h.1, ih rest m h.2 (Nat.le_of_succ_le_succ hn)⟩

theorem lastChar_cons (c : Char) (a : List Char) (h : a ≠ []) :
    lastChar (c :: a) = lastChar a := by
  cases a with
  | nil => exact absurd rfl h
  | cons c2 rest => rfl

/-- A match of `pat` cannot straddle the end of a block that ends in a
newline when `pat` contains no newline. -/
theorem strStarts_block (pat a b : List Char)
    (hnl : '\n' ∉ pat) (ha : lastChar a = some '\n') :
    strStarts pat (a ++ b) = strStarts pat a := by
  induction pat generalizing a with
  | nil => rfl
  | cons p ps ih =>
    cases a with
    | nil => cases ha
    | cons c rest =>
      cases rest with
      | nil =>
        have hc : c = '\n' := Option.some_inj.mp ha
        have hpc : (p == c) = false := by
          rw [beq_eq_false_iff_ne]
          intro e
          apply hnl
          rw [List.mem_cons]
          left
          exact (e.trans hc).symm
        rw [List.cons_append, strStarts, hpc, Bool.false_and, strStarts, hpc,
          Bool.false_and]
      | cons c2 rest2 =>
        have ha2 : lastChar (c2 :: rest2) = some '\n' := by
          rw [← lastChar_cons c (c2 :: rest2) (by simp)]
          exact ha
        have hnl2 : '\n' ∉ ps := fun hm => hnl (List.mem_cons_of_mem p hm)
        rw [List.cons_append, strStarts, strStarts,
          ih (c2 :: rest2) hnl2 ha2]

/-- Occurrence counting distributes over a block boundary when the left block
ends in a newline that the pattern does not contain. -/
theorem countSub_block (pat a b : List Char)
    (hp : pat ≠ []) (hnl : '\n' ∉ pat) (ha : lastChar a = some '\n') :
    countSub pat (a ++ b) = countSub pat a + countSub pat b := by
  induction a with
  | nil => cases ha
  | cons c rest ih =>
    have hsb := strStarts_block pat (c :: rest) b hnl ha
    rw [List.cons_append] at hsb
    rw [List.cons_append, countSub, hsb]
    cases rest with
    | nil =>
      rw [List.nil_append, countSub, countSub, strStarts_nil_false pat hp]
      simp
    | cons c2 rest2 =>
      have ha2 : lastChar (c2 :: rest2) = some '\n' := by
        rw [← lastChar_cons c (c2 :: rest2) (by simp)]
        exact ha
      rw [ih ha2]
      conv_rhs => rw [countSub]
      omega

theorem countSub_patchCode : countSub patchMarkerD patchCodeD = 1 := by
  rw [← occCount_eq]
  decide

theorem countSub_prepend (x : List Char) (h : hasSub patchMarkerD x = false) :
    occCount patchMarkerD (patchCodeD ++ x) = 1 := by
  rw [occCount_eq,
    countSub_block patchMarkerD patchCodeD x (by decide) (by decide) (by decide),
    countSub_patchCode, hasSub_count_zero patchMarkerD x h]

theorem isPatchedA_prepend (x : List Char) (b : Option (List Char)) :
    isPatchedA { content := patchCodeD ++ x, backup := b } = true := by
  have h1 : strStarts patchMarkerD (patchCodeD ++ x) = true :=
    strStarts_append patchMarkerD patchCodeD x (by decide)
  have h2 : strStarts patchMarkerD ((patchCodeD ++ x).take 1024) = true :=
    strStarts_take_of patchMarkerD _ 1024 h1 (by decide)
  rw [isPatchedA]
  cases hl : (patchCodeD ++ x).take 1024 with
  | nil => rw [hl] at h2; cases h2
  | cons c cs =>
    rw [hl] at h2
    rw [hasSub, h2, Bool.true_or]

/-! ### State lemmas for the patch engine -/

theorem patchExt_of_patched (a : Artifact) (h : isPatchedA a = true) :
    patchExtensionJS a = (a, none) := by
  rw [patchExtensionJS, h]
  rfl

theorem backupExt_content (a : Artifact) :
    (backupExtensionJS a).content = a.content := by
  cases h : a.backup <;> simp only [backupExtensionJS, h]

/-- Under the hypotheses of the stale-patch branch, a successful removal
leaves content free of the current start marker. -/
theorem unpatch_scan_free (a : Artifact)
    (hg : (!(isPatchedA a) && !(isOldPatchedA a)) = false)
    (hc : hasSub patchMarkerD a.content = false)
    (hb : ∀ b, a.backup = some b → hasSub patchMarkerD b = false)
    (hok : (unpatchExtensionJS a).2 = none) :
    hasSub patchMarkerD (unpatchExtensionJS a).1.content = false := by
  simp only [unpatchExtensionJS, hg, cond_false] at hok ⊢
  cases hIdx : idxOfSub patchEndMarkerD a.content with
  | none =>
    simp only [hIdx, restoreExtensionJS] at hok ⊢
    cases hB : a.backup with
    | none => rw [hB] at hok; cases hok
    | some b => simp only [hB]; exact hb b hB
  | some i =>
    simp only [hIdx]
    have hr : hasSub patchMarkerD (a.content.drop (i + patchEndMarkerD.length)) = false :=
      hasSub_drop patchMarkerD a.content _ hc
    split
    · next rest heq =>
      rw [heq] at hr
      exact hasSub_tail _ _ _ hr
    · next => exact hr

/-- Any successful `apply()` run on marker-free state produces content of the
form `patchCode ++ x` with `x` marker-free. -/
theorem patchExt_success_shape (a : Artifact)
    (hc : hasSub patchMarkerD a.content = false)
    (hb : ∀ b, a.backup = some b → hasSub patchMarkerD b = false)
    (hok : (patchExtensionJS a).2 = none) :
    ∃ x bk,
      patchExtensionJS a = (({ content := patchCodeD ++ x, backup := bk } : Artifact), none) ∧
      hasSub patchMarkerD x = false := by
  have hP : isPatchedA a = false := by
    rw [isPatchedA]
    exact hasSub_take patchMarkerD a.content 1024 hc
  simp only [patchExtensionJS, hP, cond_false] at hok ⊢
  cases hOld : isOldPatchedA a with
  | false =>
    simp only [hOld, cond_false]
    refine ⟨a.content, (backupExtensionJS a).backup, ?_, hc⟩
    rw [backupExt_content]
  | true =>
    simp only [hOld, cond_true] at hok ⊢
    have hg : (!(isPatchedA a) && !(isOldPatchedA a)) = false := by
      rw [hP, hOld]
      rfl
    cases hU : unpatchExtensionJS a with
    | mk a1 e =>
      cases e with
      | some err => rw [hU] at hok; cases hok
      | none =>
        have hx : hasSub patchMarkerD a1.content = false := by
          have := unpatch_scan_free a hg hc hb (by rw [hU])
          rwa [hU] at this
        simp only [hU]
        refine ⟨a1.content, (backupExtensionJS a1).backup, ?_, hx⟩
        rw [backupExt_content]

/-- Claim C3 (amended): for every artifact state whose content and sibling
backup (when present) contain no occurrence of the current start marker, if
`apply()` succeeds then a second `apply()` is a no-op success, the artifact is
in the patched-current state, and the current start marker occurs exactly
once in the content. -/
theorem claim_C3_apply_twice (a : Artifact)
    (hc : hasSub patchMarkerD a.content = false)
    (hb : ∀ b, a.backup = some b → hasSub patchMarkerD b = false)
    (hok : (patchExtensionJS a).2 = none) :
    patchExtensionJS (patchExtensionJS a).1 = ((patchExtensionJS a).1, none) ∧
    isPatchedA (patchExtensionJS a).1 = true ∧
    occCount patchMarkerD (patchExtensionJS a).1.content = 1 := by
  obtain ⟨x, bk, heq, hx⟩ := patchExt_success_shape a hc hb hok
  rw [heq]
  exact ⟨patchExt_of_patched _ (isPatchedA_prepend x bk),
    isPatchedA_prepend x bk, countSub_prepend x hx⟩

/-- Concrete instance of the amended claim C3 at the spec scenario artifact
`console.log(1)` with no backup present. -/
theorem claim_C3_witness :
    patchExtensionJS (patchExtensionJS { content := "console.log(1)".data, backup := none }).1 =
      ((patchExtensionJS { content := "console.log(1)".data, backup := none }).1, none) ∧
    isPatchedA (patchExtensionJS { content := "console.log(1)".data, backup := none }).1 = true ∧
    occCount patchMarkerD
      (patchExtensionJS { content := "console.log(1)".data, backup := none }).1.content = 1 :=
  claim_C3_apply_twice { content := "console.log(1)".data, backup := none }
    (by decide) (fun b h => nomatch h) (by decide)

/-- A stale-V1 artifact whose end marker is missing and whose sibling backup
already contains the V3 marker. -/
def c3Artifact : Artifact :=
  { content := "/* KIRO_MANAGER_PATCH_V1 */ broken".data,
    backup := some "/* KIRO_MANAGER_PATCH_V3 */".data }

/-- Claim C3 as stated (for every target artifact) is false: on `c3Artifact`
both applies succeed, the artifact ends patched-current, yet the current
start marker occurs twice, not once. -/
theorem claim_C3_counterexample :
    (patchExtensionJS c3Artifact).2 = none ∧
    (patchExtensionJS (patchExtensionJS c3Artifact).1).2 = none ∧
    occCount patchMarkerD (patchExtensionJS (patchExtensionJS c3Artifact).1).1.content = 2 ∧
    ¬ occCount patchMarkerD (patchExtensionJS (patchExtensionJS c3Artifact).1).1.content = 1 :=
  ⟨by decide, by decide, by decide, by decide⟩

/-- Claim C4 (amended): on the artifact `console.log(1)` with no backup file,
`apply()` then `remove()` restores the artifact byte-identically and leaves
the sibling backup file in place holding the original content (the backup is
deleted only on the restore-from-backup fallback path of `remove()`). -/
theorem claim_C4_apply_remove :
    (patchExtensionJS { content := "console.log(1)".data, backup := none }).2 = none ∧
    (unpatchExtensionJS
      (patchExtensionJS { content := "console.log(1)".data, backup := none }).1).2 = none ∧
    (unpatchExtensionJS
      (patchExtensionJS { content := "console.log(1)".data, backup := none }).1).1.content =
      "console.log(1)".data ∧
    (unpatchExtensionJS
      (patchExtensionJS { content := "console.log(1)".data, backup := none }).1).1.backup =
      some "console.log(1)".data :=
  ⟨by decide, by decide, by decide, by decide⟩

/-- Claim C4 as stated is false: after `apply()` then `remove()` on the
`console.log(1)` artifact, the sibling backup file still exists — the
end-marker removal path does not delete it. -/
theorem claim_C4_counterexample :
    ¬ (unpatchExtensionJS
      (patchExtensionJS { content := "console.log(1)".data, backup := none }).1).1.backup = none := by
  decide

/-! ## Backup Registry model (src/unnamed/part_002, package backup)

Snapshot storage is a directory tree under the `backups` root.  The root is
`none` when the directory does not exist; otherwise it is the list of its
entries.  JSON decoding of `machine-id.json` (`encoding/json`) and RFC3339
parsing (`time.Parse`) are stdlib calls the repository merely invokes, so the
model takes them as explicit function parameters `parseMid` and `parseTime`
and the theorems quantify over them. -/

/-- `backup.MachineIDBackup`: the decoded shape of `machine-id.json`. -/
structure MachineIDBackup where
  machineId : String
  backupTime : String
deriving DecidableEq, Repr

/-- Contents of one snapshot directory: the optional half files
`kiro-auth-token.json` and `machine-id.json`, by raw content. -/
structure SnapDir where
  tokenFile : Option String
  machineIdFile : Option String
deriving DecidableEq, Repr

/-- An entry under the backup root: a snapshot directory or a plain
non-directory file. -/
inductive FsNode where
  | dir (d : SnapDir)
  | file (content : String)
deriving DecidableEq, Repr

/-- The backup root: `none` when the `backups` directory does not exist,
otherwise its entries as (name, node) pairs. -/
abbrev BackupRoot := Option (List (String × FsNode))

/-- Directory-entry lookup by name (first match). -/
def lookupRoot (es : List (String × FsNode)) (n : String) : Option FsNode :=
  match es with
  | [] => none
  | e :: rest => cond (e.1 == n) (some e.2) (lookupRoot rest n)

/-- `backup.BackupExists`: the name is non-empty, the path exists under the
root, and the stat result is a directory. -/
def backupExists (root : BackupRoot) (name : String) : Bool :=
  cond (name == "") false
    (match root with
     | none => false
     | some es =>
       match lookupRoot es name with
       | some (.dir _) => true
       | _ => false)

/-- One row of `backup.ListBackups` output.  `BackupTime` is Go's zero
`time.Time` unless the parse chain succeeds, modelled as `Option Nat`; the
`Path` field, a pure function of root path and name, is omitted. -/
structure BackupInfo where
  name : String
  hasToken : Bool
  hasMachineID : Bool
  backupTime : Option Nat
deriving DecidableEq, Repr

/-- Per-directory step of `ListBackups`: presence flags from statting the two
half files; the display time needs the identifier half present, decodable,
with a non-empty recorded time that parses as RFC3339. -/
def entryInfo (parseMid : String → Option MachineIDBackup)
    (parseTime : String → Option Nat) (n : String) (d : SnapDir) : BackupInfo :=
  { name := n
    hasToken := d.tokenFile.isSome
    hasMachineID := d.machineIdFile.isSome
    backupTime :=
      match d.machineIdFile with
      | none => none
      | some c =>
        match parseMid c with
        | none => none
        | some mid => cond (mid.backupTime == "") none (parseTime mid.backupTime) }

/-- `backup.ListBackups` (part_002, lines 90-139): empty result when the root
directory is absent; otherwise one row per directory entry, non-directories
skipped. -/
def listBackups (parseMid : String → Option MachineIDBackup)
    (parseTime : String → Option Nat) (root : BackupRoot) : List BackupInfo :=
  match root with
  | none => []
  | some es =>
    es.filterMap fun e =>
      match e.2 with
      | .file _ => none
      | .dir d => some (entryInfo parseMid parseTime e.1 d)

/-- Whether a root entry is a directory. -/
def isDirNode : FsNode → Bool
  | .dir _ => true
  | .file _ => false

theorem listBackups_names (parseMid : String → Option MachineIDBackup)
    (parseTime : String → Option Nat) (es : List (String × FsNode)) :
    (listBackups parseMid parseTime (some es)).map (fun i => i.name) =
      (es.filter fun e => isDirNode e.2).map (fun e => e.1) := by
  induction es with
  | nil => rfl
  | cons e rest ih =>
    cases hn : e.2 with
    | dir d =>
      simp only [listBackups, List.filterMap_cons, hn, List.filter_cons,
        isDirNode, List.map_cons]
      exact congrArg (List.cons e.1) ih
    | file c =>
      simp only [listBackups, List.filterMap_cons, hn, List.filter_cons,
        isDirNode, List.map_cons]
      exact ih

theorem listBackups_mem_dir (parseMid : String → Option MachineIDBackup)
    (parseTime : String → Option Nat) (es : List (String × FsNode))
    (info : BackupInfo) (h : info ∈ listBackups parseMid parseTime (some es)) :
    ∃ d, (info.name, FsNode.dir d) ∈ es ∧ info = entryInfo parseMid parseTime info.name d := by
  induction es with
  | nil => cases h
  | cons e rest ih =>
    cases hn : e.2 with
    | dir d =>
      rw [listBackups, List.filterMap_cons, hn] at h
      cases h with
      | head =>
        refine ⟨d, ?_, rfl⟩
        have : e = (e.1, FsNode.dir d) := by
          cases e
          simp_all
        rw [entryInfo]
        exact this ▸ List.mem_cons_self e rest
      | tail _ hmem =>
        obtain ⟨d2, hd2, hinfo⟩ := ih hmem
        exact ⟨d2, List.mem_cons_of_mem e hd2, hinfo⟩
    | file c =>
      rw [listBackups, List.filterMap_cons, hn] at h
      obtain ⟨d2, hd2, hinfo⟩ := ih h
      exact ⟨d2, List.mem_cons_of_mem e hd2, hinfo⟩

theorem entryInfo_flags (parseMid : String → Option MachineIDBackup)
    (parseTime : String → Option Nat) (n : String) (d : SnapDir) :
    (entryInfo parseMid parseTime n d).hasToken = d.tokenFile.isSome ∧
    (entryInfo parseMid parseTime n d).hasMachineID = d.machineIdFile.isSome ∧
    (d.machineIdFile = none → (entryInfo parseMid parseTime n d).backupTime = none) ∧
    (∀ c, d.machineIdFile = some c → parseMid c = none →
      (entryInfo parseMid parseTime n d).backupTime = none) ∧
    (∀ c mid, d.machineIdFile = some c → parseMid c = some mid → mid.backupTime = "" →
      (entryInfo parseMid parseTime n d).backupTime = none) := by
  refine ⟨rfl, rfl, ?_, ?_, ?_⟩
  · intro h
    simp only [entryInfo, h]
  · intro c hc hp
    simp only [entryInfo, hc, hp]
  · intro c mid hc hp hbt
    simp only [entryInfo, hc, hp, hbt]
    rfl

/-- Claim C7: for every state of the snapshot store, `list()` returns exactly
one entry per existing snapshot directory, in directory order; each entry's
hasToken and hasMachineId flags equal the literal presence of the per-half
files; and the displayed backup time is empty when the identifier half is
missing, fails to decode, or records an empty timestamp. -/
theorem claim_C7_list (parseMid : String → Option MachineIDBackup)
    (parseTime : String → Option Nat) (es : List (String × FsNode)) :
    (listBackups parseMid parseTime (some es)).map (fun i => i.name) =
      (es.filter fun e => isDirNode e.2).map (fun e => e.1) ∧
    ∀ info ∈ listBackups parseMid parseTime (some es),
      ∃ d, (info.name, FsNode.dir d) ∈ es ∧
        info.hasToken = d.tokenFile.isSome ∧
        info.hasMachineID = d.machineIdFile.isSome ∧
        (d.machineIdFile = none → info.backupTime = none) ∧
        (∀ c, d.machineIdFile = some c → parseMid c = none → info.backupTime = none) ∧
        (∀ c mid, d.machineIdFile = some c → parseMid c = some mid →
          mid.backupTime = "" → info.backupTime = none) := by
  refine ⟨listBackups_names parseMid parseTime es, ?_⟩
  intro info h
  obtain ⟨d, hd, hinfo⟩ := listBackups_mem_dir parseMid parseTime es info h
  refine ⟨d, hd, ?_, ?_, ?_, ?_, ?_⟩
  · rw [hinfo]
    exact (entryInfo_flags parseMid parseTime info.name d).1
  · rw [hinfo]
    exact (entryInfo_flags parseMid parseTime info.name d).2.1
  · intro hmf
    rw [hinfo]
    exact (entryInfo_flags parseMid parseTime info.name d).2.2.1 hmf
  · intro c hc hp
    rw [hinfo]
    exact (entryInfo_flags parseMid parseTime info.name d).2.2.2.1 c hc hp
  · intro c mid hc hp hbt
    rw [hinfo]
    exact (entryInfo_flags parseMid parseTime info.name d).2.2.2.2 c mid hc hp hbt

/-- Concrete instance of claim C7: a store with one snapshot directory (token
half only) and one stray plain file lists exactly the directory. -/
theorem claim_C7_witness :
    (listBackups (fun _ => none) (fun _ => none)
      (some [("a", FsNode.dir { tokenFile := some "T", machineIdFile := none }),
        ("f", FsNode.file "x")])).map (fun i => i.name) = ["a"] := by
  rw [(claim_C7_list (fun _ => none) (fun _ => none)
    [("a", FsNode.dir { tokenFile := some "T", machineIdFile := none }),
      ("f", FsNode.file "x")]).1]
  rfl

/-- Claim C10: when the snapshot root directory does not exist, `list()`
succeeds and returns the empty list; non-directory entries under the root
never appear in the listing; and existence checks require a directory, so a
plain file of the queried name counts as non-existent. -/
theorem claim_C10_root_and_files (parseMid : String → Option MachineIDBackup)
    (parseTime : String → Option Nat) :
    listBackups parseMid parseTime none = [] ∧
    (∀ es info, info ∈ listBackups parseMid parseTime (some es) →
      ∃ d, (info.name, FsNode.dir d) ∈ es) ∧
    (∀ n, backupExists none n = false) ∧
    (∀ es n c, lookupRoot es n = some (.file c) → backupExists (some es) n = false) := by
  refine ⟨rfl, ?_, ?_, ?_⟩
  · intro es info h
    obtain ⟨d, hd, _⟩ := listBackups_mem_dir parseMid parseTime es info h
    exact ⟨d, hd⟩
  · intro n
    cases hn : (n == "") <;> simp [backupExists, hn]
  · intro es n c hl
    cases hn : (n == "") <;> simp [backupExists, hn, hl]

/-- Concrete instance of claim C10: a plain file named `work` under the root
does not count as an existing snapshot. -/
theorem claim_C10_witness :
    backupExists (some [("work", FsNode.file "junk")]) "work" = false :=
  (claim_C10_root_and_files (fun _ => none) (fun _ => none)).2.2.2
    [("work", FsNode.file "junk")] "work" "junk" (by decide)

/-! ### CreateBackup (part_002, lines 143-212) -/

/-- `os.RemoveAll` of the entry named `n` under the root. -/
def rootRemove (es : List (String × FsNode)) (n : String) : List (String × FsNode) :=
  es.filter fun e => !(e.1 == n)

/-- Create or replace the entry named `n`. -/
def rootSet (es : List (String × FsNode)) (n : String) (x : FsNode) :
    List (String × FsNode) :=
  rootRemove es n ++ [(n, x)]

/-- Environment of one `CreateBackup` run: the outcomes of the external calls
the operation makes, in program order.  `marshalMid` stands for
`json.MarshalIndent` of a `MachineIDBackup` record, which cannot fail. -/
structure CreateEnv where
  rootMkdirOk : Bool
  mkdirOk : Bool
  tokenPathOk : Bool
  liveTokenFile : Option String
  copyOk : Bool
  rawMachineId : Option String
  writeOk : Bool
  now : String
  marshalMid : MachineIDBackup → String

/-- Error kinds of `CreateBackup`, one per `return` site. -/
inductive BackupErr where
  | invalidName
  | alreadyExists
  | noToken
  | rootCreateFailed
  | dirCreateFailed
  | tokenPathFailed
  | copyFailed
  | machineIdFailed
  | writeFailed
deriving DecidableEq, Repr

/-- `backup.CreateBackup`: name validation, existence check, root and
snapshot-directory creation, token-path resolution, live-token stat, token
copy, machine-id capture, machine-id write.  Every failure after the snapshot
directory is created removes that directory again (`os.RemoveAll`). -/
def createBackup (env : CreateEnv) (root : BackupRoot) (name : String) :
    BackupRoot × Option BackupErr :=
  cond (name == "") (root, some .invalidName)
    (cond (backupExists root name) (root, some .alreadyExists)
      (cond (!env.rootMkdirOk) (root, some .rootCreateFailed)
        (let es1 := root.getD []
         cond (!env.mkdirOk ||
             (match lookupRoot es1 name with
              | some (.file _) => true
              | _ => false))
           (some es1, some .dirCreateFailed)
           (let es2 := rootSet es1 name (.dir { tokenFile := none, machineIdFile := none })
            cond (!env.tokenPathOk) (some (rootRemove es2 name), some .tokenPathFailed)
              (match env.liveTokenFile with
               | none => (some (rootRemove es2 name), some .noToken)
               | some tok =>
                 cond (!env.copyOk) (some (rootRemove es2 name), some .copyFailed)
                   (let es3 := rootSet es2 name (.dir (SnapDir.mk (some tok) none))
                    match env.rawMachineId with
                    | none => (some (rootRemove es3 name), some .machineIdFailed)
                    | some mid =>
                      cond (!env.writeOk) (some (rootRemove es3 name), some .writeFailed)
                        (some (rootSet es3 name (.dir (SnapDir.mk (some tok)
                          (some (env.marshalMid (MachineIDBackup.mk mid env.now)))))),
                          none)))))))

theorem lookupRoot_remove (es : List (String × FsNode)) (n : String) :
    lookupRoot (rootRemove es n) n = none := by
  induction es with
  | nil => rfl
  | cons e rest ih =>
    rw [rootRemove, List.filter_cons]
    cases he : (e.1 == n) with
    | true => simpa [he] using ih
    | false =>
      simp only [he, Bool.not_false, if_true]
      rw [lookupRoot, he]
      simpa using ih

theorem lookupRoot_append_self (l : List (String × FsNode)) (n : String) (x : FsNode)
    (h : lookupRoot l n = none) : lookupRoot (l ++ [(n, x)]) n = some x := by
  induction l with
  | nil => simp [lookupRoot]
  | cons e rest ih =>
    rw [lookupRoot] at h
    rw [List.cons_append, lookupRoot]
    cases he : (e.1 == n) with
    | true => rw [he] at h; simp only [cond_true] at h; cases h
    | false =>
      rw [he] at h
      simp only [cond_false] at h ⊢
      exact ih h

theorem lookupRoot_set (es : List (String × FsNode)) (n : String) (x : FsNode) :
    lookupRoot (rootSet es n x) n = some x :=
  lookupRoot_append_self (rootRemove es n) n x (lookupRoot_remove es n)

/-- The empty snapshot directory, right after `os.MkdirAll`. -/
def emptySnap : SnapDir := { tokenFile := none, machineIdFile := none }

/-- The snapshot-directory creation guard of `CreateBackup`: `os.MkdirAll`
fails through the injected outcome or because a plain file bears the name. -/
def mkdirFails (env : CreateEnv) (root : BackupRoot) (name : String) : Bool :=
  !env.mkdirOk ||
    (match lookupRoot (root.getD []) name with
     | some (.file _) => true
     | _ => false)

theorem cb_run_invalid (env : CreateEnv) (root : BackupRoot) (name : String)
    (h : (name == "") = true) :
    createBackup env root name = (root, some .invalidName) := by
  simp [createBackup, h]

theorem cb_run_exists (env : CreateEnv) (root : BackupRoot) (name : String)
    (h1 : (name == "") = false) (h2 : backupExists root name = true) :
    createBackup env root name = (root, some .alreadyExists) := by
  simp [createBackup, h1, h2]

theorem cb_run_rootfail (env : CreateEnv) (root : BackupRoot) (name : String)
    (h1 : (name == "") = false) (h2 : backupExists root name = false)
    (h3 : env.rootMkdirOk = false) :
    createBackup env root name = (root, some .rootCreateFailed) := by
  simp [createBackup, h1, h2, h3]

theorem cb_run_dirfail (env : CreateEnv) (root : BackupRoot) (name : String)
    (h1 : (name == "") = false) (h2 : backupExists root name = false)
    (h3 : env.rootMkdirOk = true) (h4 : mkdirFails env root name = true) :
    createBackup env root name = (some (root.getD []), some .dirCreateFailed) := by
  rw [mkdirFails] at h4
  simp [createBackup, h1, h2, h3, h4]

theorem cb_run_tokenpathfail (env : CreateEnv) (root : BackupRoot) (name : String)
    (h1 : (name == "") = false) (h2 : backupExists root name = false)
    (h3 : env.rootMkdirOk = true) (h4 : mkdirFails env root name = false)
    (h5 : env.tokenPathOk = false) :
    createBackup env root name =
      (some (rootRemove (rootSet (root.getD []) name (.dir emptySnap)) name),
        some .tokenPathFailed) := by
  rw [mkdirFails] at h4
  simp [createBackup, h1, h2, h3, h4, h5, emptySnap]

theorem cb_run_notoken (env : CreateEnv) (root : BackupRoot) (name : String)
    (h1 : (name == "") = false) (h2 : backupExists root name = false)
    (h3 : env.rootMkdirOk = true) (h4 : mkdirFails env root name = false)
    (h5 : env.tokenPathOk = true) (h6 : env.liveTokenFile = none) :
    createBackup env root name =
      (some (rootRemove (rootSet (root.getD []) name (.dir emptySnap)) name),
        some .noToken) := by
  rw [mkdirFails] at h4
  simp [createBackup, h1, h2, h3, h4, h5, h6, emptySnap]

theorem cb_run_copyfail (env : CreateEnv) (root : BackupRoot) (name : String)
    (tok : String)
    (h1 : (name == "") = false) (h2 : backupExists root name = false)
    (h3 : env.rootMkdirOk = true) (h4 : mkdirFails env root name = false)
    (h5 : env.tokenPathOk = true) (h6 : env.liveTokenFile = some tok)
    (h7 : env.copyOk = false) :
    createBackup env root name =
      (some (rootRemove (rootSet (root.getD []) name (.dir emptySnap)) name),
        some .copyFailed) := by
  rw [mkdirFails] at h4
  simp [createBackup, h1, h2, h3, h4, h5, h6, h7, emptySnap]

theorem cb_run_midfail (env : CreateEnv) (root : BackupRoot) (name : String)
    (tok : String)
    (h1 : (name == "") = false) (h2 : backupExists root name = false)
    (h3 : env.rootMkdirOk = true) (h4 : mkdirFails env root name = false)
    (h5 : env.tokenPathOk = true) (h6 : env.liveTokenFile = some tok)
    (h7 : env.copyOk = true) (h8 : env.rawMachineId = none) :
    createBackup env root name =
      (some (rootRemove
        (rootSet (rootSet (root.getD []) name (.dir emptySnap)) name
          (.dir (SnapDir.mk (some tok) none))) name),
        some .machineIdFailed) := by
  rw [mkdirFails] at h4
  simp [createBackup, h1, h2, h3, h4, h5, h6, h7, h8, emptySnap]

theorem cb_run_writefail (env : CreateEnv) (root : BackupRoot) (name : String)
    (tok mid : String)
    (h1 : (name == "") = false) (h2 : backupExists root name = false)
    (h3 : env.rootMkdirOk = true) (h4 : mkdirFails env root name = false)
    (h5 : env.tokenPathOk = true) (h6 : env.liveTokenFile = some tok)
    (h7 : env.copyOk = true) (h8 : env.rawMachineId = some mid)
    (h9 : env.writeOk = false) :
    createBackup env root name =
      (some (rootRemove
        (rootSet (rootSet (root.getD []) name (.dir emptySnap)) name
          (.dir (SnapDir.mk (some tok) none))) name),
        some .writeFailed) := by
  rw [mkdirFails] at h4
  simp [createBackup, h1, h2, h3, h4, h5, h6, h7, h8, h9, emptySnap]

theorem cb_run_ok (env : CreateEnv) (root : BackupRoot) (name : String)
    (tok mid : String)
    (h1 : (name == "") = false) (h2 : backupExists root name = false)
    (h3 : env.rootMkdirOk = true) (h4 : mkdirFails env root name = false)
    (h5 : env.tokenPathOk = true) (h6 : env.liveTokenFile = some tok)
    (h7 : env.copyOk = true) (h8 : env.rawMachineId = some mid)
    (h9 : env.writeOk = true) :
    createBackup env root name =
      (some (rootSet
        (rootSet (rootSet (root.getD []) name (.dir emptySnap)) name
          (.dir (SnapDir.mk (some tok) none))) name
        (.dir (SnapDir.mk (some tok)
          (some (env.marshalMid (MachineIDBackup.mk mid env.now)))))),
        none) := by
  rw [mkdirFails] at h4
  simp [createBackup, h1, h2, h3, h4, h5, h6, h7, h8, h9, emptySnap]

/-- Exhaustive case analysis of one `CreateBackup` run: which error names
which failed guard, and the shape of the resulting store. -/
theorem cb_analysis (env : CreateEnv) (root : BackupRoot) (name : String)
    (R : BackupRoot) (E : Option BackupErr)
    (hRE : createBackup env root name = (R, E)) :
    (E = some .invalidName → name = "") ∧
    (E = some .noToken → env.liveTokenFile = none) ∧
    (∀ e, E = some e → e ≠ .invalidName → e ≠ .alreadyExists → e ≠ .rootCreateFailed →
      e ≠ .dirCreateFailed → ∃ es, R = some es ∧ lookupRoot es name = none) ∧
    (E = none → ∃ es d, R = some es ∧ lookupRoot es name = some (.dir d) ∧
      d.tokenFile.isSome = true ∧ d.machineIdFile.isSome = true) := by
  cases hname : (name == "") with
  | true =>
    rw [cb_run_invalid env root name hname] at hRE
    injection hRE with hR hE
    subst hR
    subst hE
    exact ⟨fun _ => beq_iff_eq.mp hname, fun hx => BackupErr.noConfusion (Option.some_inj.mp hx),
      fun e he h1 _ _ _ => absurd (Option.some_inj.mp he).symm h1,
      fun h0 => Option.noConfusion h0⟩
  | false =>
    cases hex : backupExists root name with
    | true =>
      rw [cb_run_exists env root name hname hex] at hRE
      injection hRE with hR hE
      subst hR
      subst hE
      exact ⟨fun hx => BackupErr.noConfusion (Option.some_inj.mp hx), fun hx => BackupErr.noConfusion (Option.some_inj.mp hx),
        fun e he _ h2 _ _ => absurd (Option.some_inj.mp he).symm h2,
        fun h0 => Option.noConfusion h0⟩
    | false =>
      cases hroot : env.rootMkdirOk with
      | false =>
        rw [cb_run_rootfail env root name hname hex hroot] at hRE
        injection hRE with hR hE
        subst hR
        subst hE
        exact ⟨fun hx => BackupErr.noConfusion (Option.some_inj.mp hx), fun hx => BackupErr.noConfusion (Option.some_inj.mp hx),
          fun e he _ _ h3 _ => absurd (Option.some_inj.mp he).symm h3,
          fun h0 => Option.noConfusion h0⟩
      | true =>
        cases hdir : mkdirFails env root name with
        | true =>
          rw [cb_run_dirfail env root name hname hex hroot hdir] at hRE
          injection hRE with hR hE
          subst hR
          subst hE
          exact ⟨fun hx => BackupErr.noConfusion (Option.some_inj.mp hx), fun hx => BackupErr.noConfusion (Option.some_inj.mp hx),
            fun e he _ _ _ h4 => absurd (Option.some_inj.mp he).symm h4,
            fun h0 => Option.noConfusion h0⟩
        | false =>
          cases htp : env.tokenPathOk with
          | false =>
            rw [cb_run_tokenpathfail env root name hname hex hroot hdir htp] at hRE
            injection hRE with hR hE
            subst hR
            subst hE
            exact ⟨fun hx => BackupErr.noConfusion (Option.some_inj.mp hx), fun hx => BackupErr.noConfusion (Option.some_inj.mp hx),
              fun e _ _ _ _ _ => ⟨_, rfl, lookupRoot_remove _ _⟩,
              fun h0 => Option.noConfusion h0⟩
          | true =>
            cases hlive : env.liveTokenFile with
            | none =>
              rw [cb_run_notoken env root name hname hex hroot hdir htp hlive] at hRE
              injection hRE with hR hE
              subst hR
              subst hE
              exact ⟨fun hx => BackupErr.noConfusion (Option.some_inj.mp hx), fun _ => rfl,
                fun e _ _ _ _ _ => ⟨_, rfl, lookupRoot_remove _ _⟩,
                fun h0 => Option.noConfusion h0⟩
            | some tok =>
              cases hcopy : env.copyOk with
              | false =>
                rw [cb_run_copyfail env root name tok hname hex hroot hdir htp hlive hcopy] at hRE
                injection hRE with hR hE
                subst hR
                subst hE
                exact ⟨fun hx => BackupErr.noConfusion (Option.some_inj.mp hx), fun hx => BackupErr.noConfusion (Option.some_inj.mp hx),
                  fun e _ _ _ _ _ => ⟨_, rfl, lookupRoot_remove _ _⟩,
                  fun h0 => Option.noConfusion h0⟩
              | true =>
                cases hmid : env.rawMachineId with
                | none =>
                  rw [cb_run_midfail env root name tok hname hex hroot hdir htp hlive
                    hcopy hmid] at hRE
                  injection hRE with hR hE
                  subst hR
                  subst hE
                  exact ⟨fun hx => BackupErr.noConfusion (Option.some_inj.mp hx), fun hx => BackupErr.noConfusion (Option.some_inj.mp hx),
                    fun e _ _ _ _ _ => ⟨_, rfl, lookupRoot_remove _ _⟩,
                    fun h0 => Option.noConfusion h0⟩
                | some mid =>
                  cases hwrite : env.writeOk with
                  | false =>
                    rw [cb_run_writefail env root name tok mid hname hex hroot hdir htp
                      hlive hcopy hmid hwrite] at hRE
                    injection hRE with hR hE
                    subst hR
                    subst hE
                    exact ⟨fun hx => BackupErr.noConfusion (Option.some_inj.mp hx), fun hx => BackupErr.noConfusion (Option.some_inj.mp hx),
                      fun e _ _ _ _ _ => ⟨_, rfl, lookupRoot_remove _ _⟩,
                      fun h0 => Option.noConfusion h0⟩
                  | true =>
                    rw [cb_run_ok env root name tok mid hname hex hroot hdir htp
                      hlive hcopy hmid hwrite] at hRE
                    injection hRE with hR hE
                    subst hR
                    subst hE
                    exact ⟨fun hx => Option.noConfusion hx, fun hx => Option.noConfusion hx,
                      fun e he => Option.noConfusion he,
                      fun _ => ⟨_, _, rfl, lookupRoot_set _ _ _, rfl, rfl⟩⟩

/-- Claim C5: `create(name)` fails invalid-name exactly when the name is
empty; fails already-exists (changing nothing) when a snapshot of the name
exists; fails no-token when the live authentication token file is absent;
conversely the no-token error only arises with the live token absent; every
failure after the snapshot directory is created leaves no entry of the name
behind (all-or-nothing); and success leaves a snapshot holding both halves. -/
theorem claim_C5_create (env : CreateEnv) (root : BackupRoot) (name : String) :
    ((createBackup env root name).2 = some .invalidName ↔ name = "") ∧
    (name ≠ "" → backupExists root name = true →
      createBackup env root name = (root, some .alreadyExists)) ∧
    (name ≠ "" → backupExists root name = false → env.rootMkdirOk = true →
      mkdirFails env root name = false → env.tokenPathOk = true →
      env.liveTokenFile = none →
      (createBackup env root name).2 = some .noToken) ∧
    ((createBackup env root name).2 = some .noToken → env.liveTokenFile = none) ∧
    (∀ e, (createBackup env root name).2 = some e → e ≠ .invalidName →
      e ≠ .alreadyExists → e ≠ .rootCreateFailed → e ≠ .dirCreateFailed →
      ∃ es, (createBackup env root name).1 = some es ∧ lookupRoot es name = none) ∧
    ((createBackup env root name).2 = none →
      ∃ es d, (createBackup env root name).1 = some es ∧
        lookupRoot es name = some (.dir d) ∧
        d.tokenFile.isSome = true ∧ d.machineIdFile.isSome = true) := by
  obtain ⟨a1, a2, a3, a4⟩ := cb_analysis env root name
    (createBackup env root name).1 (createBackup env root name).2 rfl
  refine ⟨⟨a1, ?_⟩, ?_, ?_, a2, a3, a4⟩
  · intro h
    rw [cb_run_invalid env root name (beq_iff_eq.mpr h)]
  · intro hne hex
    exact cb_run_exists env root name (beq_eq_false_iff_ne.mpr hne) hex
  · intro hne hex hroot hdir htp hlive
    rw [cb_run_notoken env root name (beq_eq_false_iff_ne.mpr hne) hex hroot hdir htp hlive]

/-- A run environment with no live token file and all other calls succeeding. -/
def envC5 : CreateEnv :=
  { rootMkdirOk := true, mkdirOk := true, tokenPathOk := true,
    liveTokenFile := none, copyOk := true, rawMachineId := some "abc",
    writeOk := true, now := "2025-01-01T00:00:00Z", marshalMid := fun _ => "M" }

/-- Concrete instance of claim C5: with no live token, creating `work` over an
empty store fails with the no-token error. -/
theorem claim_C5_witness :
    (createBackup envC5 (some []) "work").2 = some BackupErr.noToken :=
  (claim_C5_create envC5 (some []) "work").2.2.1 (by decide) (by decide) rfl
    (by decide) rfl rfl

/-! ## Hard-reset model (src/reset/reset_windows.go, package reset) -/

/-- `reset.ResetResult`: the result record, populated incrementally. -/
structure ResetResult where
  cacheCleared : Bool := false
  oldMachineID : String := ""
  newMachineID : String := ""
  machineIDChanged : Bool := false
deriving DecidableEq, Repr

/-- Error kinds of the hard-reset path. -/
inductive ResetErr where
  | notWindows
  | machineIdFailed
  | backupRequired
  | requiresAdmin
  | execFailed (output : String)
deriving DecidableEq, Repr

/-- System state the hard reset touches: the backup store (read only), the
SSO cache directory, and the registry `MachineGuid` value. -/
structure SysState where
  backups : BackupRoot
  ssoCache : Bool
  machineGuid : String
deriving DecidableEq, Repr

/-- Environment of one hard-reset run: platform, raw-identifier read outcome,
`json.Unmarshal` for `ReadBackupMachineID`, the generated UUID, and the
combined output of a failing `reg add` (`none` = the command succeeded). -/
structure ResetEnv where
  goosWindows : Bool
  rawMachineId : Option String
  parseMid : String → Option MachineIDBackup
  newId : String
  regOutput : Option String

/-- `reset.IsCurrentMachineIDBackedUp` (reset_windows.go, lines 101-126):
list the snapshots, read each snapshot's identifier half, skip unreadable
ones, and compare case-insensitively against the current identifier. -/
def isCurrentMachineIDBackedUp (parseMid : String → Option MachineIDBackup)
    (root : BackupRoot) (current : String) : Bool :=
  match root with
  | none => false
  | some es =>
    es.any fun e =>
      match e.2 with
      | .file _ => false
      | .dir d =>
        match d.machineIdFile with
        | none => false
        | some c =>
          match parseMid c with
          | none => false
          | some mid => eqFold mid.machineId current

/-- `reset.setWindowsMachineIDNative` (reset_windows.go, lines 15-38): run
`reg add`; on failure inspect the combined output for the access-denied
markers and map those to the requires-admin error. -/
def setWindowsMachineIDNative (env : ResetEnv) (st : SysState) (newGUID : String) :
    SysState × Option ResetErr :=
  match env.regOutput with
  | none => ({ st with machineGuid := newGUID }, none)
  | some out =>
    cond (strHas out "拒絕存取" || strHas out "Access is denied" ||
        strHas out "ERROR: Access is denied")
      (st, some .requiresAdmin)
      (st, some (.execFailed out))

/-- `reset.SetWindowsMachineID`: platform gate, then the native write. -/
def setWindowsMachineID (env : ResetEnv) (st : SysState) (newGUID : String) :
    SysState × Option ResetErr :=
  cond (!env.goosWindows) (st, some .notWindows)
    (setWindowsMachineIDNative env st newGUID)

/-- `reset.ResetEnvironment` (reset_windows.go, lines 133-175): platform
gate, current-identifier read, optional safety check, SSO cache clear, new
identifier generation, registry write.  The result record is populated step
by step and returned alongside any error. -/
def resetEnvironment (env : ResetEnv) (st : SysState) (skipBackupCheck : Bool) :
    SysState × Option ResetResult × Option ResetErr :=
  cond (!env.goosWindows) (st, none, some .notWindows)
    (match env.rawMachineId with
     | none => (st, none, some .machineIdFailed)
     | some old =>
       cond (!skipBackupCheck &&
           !(isCurrentMachineIDBackedUp env.parseMid st.backups old))
         (st, some { oldMachineID := old }, some .backupRequired)
         (let st1 := { st with ssoCache := false }
          let r2 : ResetResult :=
            { cacheCleared := true, oldMachineID := old, newMachineID := env.newId }
          match setWindowsMachineID env st1 env.newId with
          | (st2, some e) => (st2, some r2, some e)
          | (st2, none) => (st2, some { r2 with machineIDChanged := true }, none)))

/-- Pointwise no-match over every readable identifier half forces the scan to
come back false. -/
theorem isBackedUp_false (parseMid : String → Option MachineIDBackup)
    (es : List (String × FsNode)) (cur : String)
    (h : ∀ n d c mid, (n, FsNode.dir d) ∈ es → d.machineIdFile = some c →
      parseMid c = some mid → eqFold mid.machineId cur = false) :
    isCurrentMachineIDBackedUp parseMid (some es) cur = false := by
  rw [isCurrentMachineIDBackedUp]
  induction es with
  | nil => rfl
  | cons e rest ih =>
    rw [List.any_cons, Bool.or_eq_false_iff]
    constructor
    · cases he : e.2 with
      | file c => rfl
      | dir d =>
        show (match d.machineIdFile with
          | none => false
          | some c =>
            match parseMid c with
            | none => false
            | some mid => eqFold mid.machineId cur) = false
        cases hmf : d.machineIdFile with
        | none => rfl
        | some c =>
          show (match parseMid c with
            | none => false
            | some mid => eqFold mid.machineId cur) = false
          cases hp : parseMid c with
          | none => rfl
          | some mid =>
            have he2 : (e.1, FsNode.dir d) ∈ e :: rest := by
              have hee : e = (e.1, FsNode.dir d) := by
                cases e
                simp_all
              exact hee ▸ List.mem_cons_self e rest
            exact h e.1 d c mid he2 hmf hp
    · exact ih fun n d c mid hm hmf hp =>
        h n d c mid (List.mem_cons_of_mem e hm) hmf hp

/-- Claim C2: with the skip flag unset, when no snapshot's readable
identifier half case-insensitively equals the current raw identifier,
`resetEnvironment` returns the backup-required error with only the old
identifier reported, and the system state is completely unchanged (cache not
cleared, registry untouched); with the skip flag set, the backup check can
never fail the run. -/
theorem claim_C2_backup_required (env : ResetEnv) (st : SysState) (cur : String)
    (hw : env.goosWindows = true) (hid : env.rawMachineId = some cur)
    (hnm : ∀ es, st.backups = some es → ∀ n d c mid,
      (n, FsNode.dir d) ∈ es → d.machineIdFile = some c →
      env.parseMid c = some mid → eqFold mid.machineId cur = false) :
    resetEnvironment env st false =
      (st, some { oldMachineID := cur }, some .backupRequired) ∧
    (resetEnvironment env st true).2.2 ≠ some ResetErr.backupRequired := by
  have hscan : isCurrentMachineIDBackedUp env.parseMid st.backups cur = false := by
    cases hb : st.backups with
    | none => rfl
    | some es => exact isBackedUp_false env.parseMid es cur (hnm es hb)
  constructor
  · rw [resetEnvironment, hw, hid]
    simp only [Bool.not_true, cond_false, hscan, Bool.not_false, Bool.and_self]
    rfl
  · rw [resetEnvironment, hw, hid]
    simp only [Bool.not_true, cond_false, Bool.false_and]
    rw [setWindowsMachineID, hw]
    simp only [Bool.not_true, cond_false, setWindowsMachineIDNative]
    cases hro : env.regOutput with
    | none => simp
    | some out =>
      cases hden : (strHas out "拒絕存取" || strHas out "Access is denied" ||
          strHas out "ERROR: Access is denied") with
      | true => simp [hden]
      | false => simp [hden]

/-- Environment for the claim C2 instance: Windows, readable identifier,
identifier halves that do not decode. -/
def envC2 : ResetEnv :=
  { goosWindows := true, rawMachineId := some "id-1",
    parseMid := fun _ => none, newId := "new-1", regOutput := none }

/-- State for the claim C2 instance: one snapshot with an undecodable
identifier half, cache present. -/
def stC2 : SysState :=
  { backups := some [("original", FsNode.dir { tokenFile := none, machineIdFile := some "J" })],
    ssoCache := true, machineGuid := "id-1" }

/-- Concrete instance of claim C2: one snapshot whose identifier half does
not decode; the hard reset without the skip flag refuses to run and changes
nothing. -/
theorem claim_C2_witness :
    resetEnvironment envC2 stC2 false =
      (stC2, some { oldMachineID := "id-1" }, some .backupRequired) :=
  (claim_C2_backup_required envC2 stC2 "id-1" rfl rfl
    (fun _ _ _ _ _ _ _ _ hp => Option.noConfusion hp)).1

/-- Claim C6: when the run reaches the registry write (step 5) and that
write fails, the returned result still reports the cache-cleared fact and
both identifiers alongside the error; and an access-denied marker in the
elevated command's output maps to the distinct requires-admin error, any
other output to the generic failure carrying that output. -/
theorem claim_C6_incremental (env : ResetEnv) (st : SysState) (cur out : String)
    (skipBackupCheck : Bool)
    (hw : env.goosWindows = true) (hid : env.rawMachineId = some cur)
    (hreg : env.regOutput = some out)
    (hpass : skipBackupCheck = true ∨
      isCurrentMachineIDBackedUp env.parseMid st.backups cur = true) :
    (resetEnvironment env st skipBackupCheck).2.1 =
      some { cacheCleared := true, oldMachineID := cur, newMachineID := env.newId, machineIDChanged := false } ∧
    ((strHas out "拒絕存取" || strHas out "Access is denied" ||
        strHas out "ERROR: Access is denied") = true →
      (resetEnvironment env st skipBackupCheck).2.2 = some .requiresAdmin) ∧
    ((strHas out "拒絕存取" || strHas out "Access is denied" ||
        strHas out "ERROR: Access is denied") = false →
      (resetEnvironment env st skipBackupCheck).2.2 = some (.execFailed out)) := by
  have hguard : (!skipBackupCheck &&
      !(isCurrentMachineIDBackedUp env.parseMid st.backups cur)) = false := by
    cases hpass with
    | inl h => rw [h]; rfl
    | inr h => rw [h]; simp
  rw [resetEnvironment, hw, hid]
  simp only [Bool.not_true, cond_false, hguard]
  rw [setWindowsMachineID, hw]
  simp only [Bool.not_true, cond_false, setWindowsMachineIDNative, hreg]
  cases hden : (strHas out "拒絕存取" || strHas out "Access is denied" ||
      strHas out "ERROR: Access is denied") with
  | true =>
    refine ⟨?_, fun _ => ?_, fun hc => ?_⟩
    · simp [hden]
    · simp [hden]
    · cases hc
  | false =>
    refine ⟨?_, fun hc => ?_, fun _ => ?_⟩
    · simp [hden]
    · cases hc
    · simp [hden]

/-- Environment for the claim C6 instance: the `reg add` write fails with an
access-denied output. -/
def envC6 : ResetEnv :=
  { goosWindows := true, rawMachineId := some "id-1",
    parseMid := fun _ => none, newId := "new-1",
    regOutput := some "ERROR: Access is denied." }

/-- Concrete instance of claim C6: with the skip flag set and the registry
write denied, the result still reports the cleared cache and both
identifiers, and the error is requires-admin. -/
theorem claim_C6_witness :
    (resetEnvironment envC6 stC2 true).2.1 =
      some { cacheCleared := true, oldMachineID := "id-1", newMachineID := "new-1", machineIDChanged := false } ∧
    (resetEnvironment envC6 stC2 true).2.2 = some ResetErr.requiresAdmin :=
  ⟨(claim_C6_incremental envC6 stC2 "id-1" "ERROR: Access is denied." true rfl rfl rfl
      (Or.inl rfl)).1,
    (claim_C6_incremental envC6 stC2 "id-1" "ERROR: Access is denied." true rfl rfl rfl
      (Or.inl rfl)).2.1 (by decide)⟩

/-! ## Soft-reset status model (src/softreset/softreset.go) -/

/-- `softreset.SoftResetStatus`: the status record, zero-valued by default. -/
structure SoftResetStatus where
  isPatched : Bool := false
  hasCustomID : Bool := false
  customMachineID : String := ""
  extensionPath : String := ""
deriving DecidableEq, Repr

/-- The not-found error of `ReadCustomMachineID` (`ErrCustomIDNotFound`). -/
inductive CustomIDErr where
  | notFound
deriving DecidableEq, Repr

/-- `softreset.ReadCustomMachineID` (softreset.go, lines 50-70): a missing
override file and a file whose contents trim to the empty string both report
not-found; otherwise the trimmed contents are returned.  (Home-path
resolution and other read errors propagate unchanged and sit outside this
model; the input is the file state, `none` = absent.) -/
def readCustomMachineID (file : Option String) : Except CustomIDErr String :=
  match file with
  | none => .error .notFound
  | some data =>
    let id := trimS data
    cond (id == "") (.error .notFound) (.ok id)

/-- `softreset.GetSoftResetStatus` (softreset.go, lines 174-197): three
independent sub-queries — `IsPatched`, `ReadCustomMachineID`,
`GetExtensionJSPath` — each consulted for its fields only when it succeeds;
the call itself always returns without error. -/
def getSoftResetStatus (patchedQ : Except PatchErr Bool)
    (customQ : Except CustomIDErr String) (pathQ : Except PatchErr String) :
    SoftResetStatus × Option PatchErr :=
  let s0 : SoftResetStatus := {}
  let s1 := match patchedQ with
    | .ok b => { s0 with isPatched := b }
    | .error _ => s0
  let s2 := match customQ with
    | .ok id => { s1 with hasCustomID := true, customMachineID := id }
    | .error _ => s1
  let s3 := match pathQ with
    | .ok p => { s2 with extensionPath := p }
    | .error _ => s2
  (s3, none)

/-- Claim C8: the status query never returns an error; each field follows its
own sub-query alone — failures leave the field at its false/empty default —
and changing one sub-query's outcome never affects another sub-query's
fields. -/
theorem claim_C8_status_infallible (pq : Except PatchErr Bool)
    (cq : Except CustomIDErr String) (xq : Except PatchErr String) :
    (getSoftResetStatus pq cq xq).2 = none ∧
    (∀ e, pq = .error e → (getSoftResetStatus pq cq xq).1.isPatched = false) ∧
    (∀ b, pq = .ok b → (getSoftResetStatus pq cq xq).1.isPatched = b) ∧
    (∀ e, cq = .error e → (getSoftResetStatus pq cq xq).1.hasCustomID = false ∧
      (getSoftResetStatus pq cq xq).1.customMachineID = "") ∧
    (∀ id, cq = .ok id → (getSoftResetStatus pq cq xq).1.hasCustomID = true ∧
      (getSoftResetStatus pq cq xq).1.customMachineID = id) ∧
    (∀ e, xq = .error e → (getSoftResetStatus pq cq xq).1.extensionPath = "") ∧
    (∀ p, xq = .ok p → (getSoftResetStatus pq cq xq).1.extensionPath = p) ∧
    (∀ cq2 xq2, (getSoftResetStatus pq cq xq).1.isPatched =
      (getSoftResetStatus pq cq2 xq2).1.isPatched) ∧
    (∀ pq2 xq2, (getSoftResetStatus pq cq xq).1.hasCustomID =
      (getSoftResetStatus pq2 cq xq2).1.hasCustomID) := by
  refine ⟨rfl, ?_, ?_, ?_, ?_, ?_, ?_, ?_, ?_⟩
  · intro e he
    rw [he]
    cases cq <;> cases xq <;> rfl
  · intro b hb
    rw [hb]
    cases cq <;> cases xq <;> rfl
  · intro e he
    rw [he]
    cases pq <;> cases xq <;> exact ⟨rfl, rfl⟩
  · intro id hid
    rw [hid]
    cases pq <;> cases xq <;> exact ⟨rfl, rfl⟩
  · intro e he
    rw [he]
    cases pq <;> cases cq <;> rfl
  · intro p hp
    rw [hp]
    cases pq <;> cases cq <;> rfl
  · intro cq2 xq2
    cases pq <;> cases cq <;> cases cq2 <;> cases xq <;> cases xq2 <;> rfl
  · intro pq2 xq2
    cases pq <;> cases pq2 <;> cases cq <;> cases xq <;> cases xq2 <;> rfl

/-- Concrete instance of claim C8: with all three sub-queries failing, the
call still succeeds and every field is at its default. -/
theorem claim_C8_witness :
    (getSoftResetStatus (.error .extensionNotFound) (.error .notFound)
      (.error .extensionNotFound)).2 = none ∧
    (getSoftResetStatus (.error .extensionNotFound) (.error .notFound)
      (.error .extensionNotFound)).1.hasCustomID = false :=
  ⟨(claim_C8_status_infallible (.error .extensionNotFound) (.error .notFound)
      (.error .extensionNotFound)).1,
    ((claim_C8_status_infallible (.error .extensionNotFound) (.error .notFound)
      (.error .extensionNotFound)).2.2.2.1 .notFound rfl).1⟩

theorem trimS_all_space (s : String) (h : ∀ c ∈ s.data, isGoSpace c = true) :
    trimS s = "" := by
  rw [trimS]
  have hd : s.data.dropWhile isGoSpace = [] := List.dropWhile_eq_nil_iff.mpr h
  rw [hd]
  rfl

/-- Claim C9: reading the override identifier reports not-found both when
the file is absent and when its contents trim to the empty string; hence a
whitespace-only override file is indistinguishable from no override, and the
status query reports has-override = false for both. -/
theorem claim_C9_whitespace_override (pq : Except PatchErr Bool)
    (xq : Except PatchErr String) :
    readCustomMachineID none = .error .notFound ∧
    (∀ s, trimS s = "" → readCustomMachineID (some s) = .error .notFound) ∧
    (∀ s, (∀ c ∈ s.data, isGoSpace c = true) →
      readCustomMachineID (some s) = .error .notFound) ∧
    (∀ s, (∀ c ∈ s.data, isGoSpace c = true) →
      (getSoftResetStatus pq (readCustomMachineID (some s)) xq).1.hasCustomID = false) ∧
    (getSoftResetStatus pq (readCustomMachineID none) xq).1.hasCustomID = false := by
  have h2 : ∀ s, trimS s = "" → readCustomMachineID (some s) = .error .notFound := by
    intro s hs
    rw [readCustomMachineID]
    simp only [hs]
    rfl
  have h3 : ∀ s, (∀ c ∈ s.data, isGoSpace c = true) →
      readCustomMachineID (some s) = .error .notFound :=
    fun s hs => h2 s (trimS_all_space s hs)
  refine ⟨rfl, h2, h3, ?_, ?_⟩
  · intro s hs
    rw [h3 s hs]
    cases pq <;> cases xq <;> rfl
  · show (getSoftResetStatus pq (Except.error .notFound) xq).1.hasCustomID = false
    cases pq <;> cases xq <;> rfl

/-- Concrete instance of claim C9: a whitespace-only override file reports
not-found and status shows no override. -/
theorem claim_C9_witness :
    readCustomMachineID (some "  \n\t ") = .error .notFound ∧
    (getSoftResetStatus (.ok true) (readCustomMachineID (some "  \n\t "))
      (.ok "p")).1.hasCustomID = false :=
  ⟨(claim_C9_whitespace_override (.ok true) (.ok "p")).2.2.1 "  \n\t " (by decide),
    (claim_C9_whitespace_override (.ok true) (.ok "p")).2.2.2.1 "  \n\t " (by decide)⟩

end KiroManager
